import Mathlib

/-!
Verification of the `otp` TypeScript library (TOTP implementation, RFC 6238).

The development shallowly embeds the library's own code (`src/lib/totp.ts`,
`src/utils/validation.ts`, `src/utils/crypto.ts`) in Lean.  Byte strings are
`List Nat` with entries below 256; JavaScript numbers are modelled as exact
naturals/integers where the code only manipulates integral values; fallible
code returns `Except`.

The external collaborators (node's HMAC primitive and the `hi-base32` codec)
are not part of the repository; they are modelled from the spec / their
defining standards (FIPS 180, RFC 2104, RFC 4648).
-/

set_option maxRecDepth 100000

namespace OTP

/-- Byte strings: lists of naturals, each below 256 by construction. -/
abbrev Bytes := List Nat

/-! ### 32-bit word helpers (for SHA-1 / SHA-256) -/

/-- Truncate to a 32-bit word. -/
def w32 (x : Nat) : Nat := x % 2 ^ 32

/-- Left rotation of a 32-bit word. -/
def rotl32 (x n : Nat) : Nat := w32 ((x <<< n) ||| (x >>> (32 - n)))

/-- Right rotation of a 32-bit word. -/
def rotr32 (x n : Nat) : Nat := w32 ((x >>> n) ||| (x <<< (32 - n)))

/-- Bitwise complement within 32 bits. -/
def not32 (x : Nat) : Nat := x ^^^ 0xffffffff

/-- Big-endian bytes of `x`, exactly `n` bytes. -/
def beBytes : Nat → Nat → Bytes
  | 0, _ => []
  | n + 1, x => beBytes n (x / 256) ++ [x % 256]

/-- Group a byte list into big-endian 32-bit words (4 bytes per word). -/
def beWords4 : Bytes → List Nat
  | b0 :: b1 :: b2 :: b3 :: rest => (((b0 * 256 + b1) * 256 + b2) * 256 + b3) :: beWords4 rest
  | _ => []

/-- Split a word list into chunks of `k` words, with explicit fuel so the
definition is structurally recursive (kernel-evaluable). -/
def chunksFuel (k : Nat) : Nat → List Nat → List (List Nat)
  | 0, _ => []
  | _, [] => []
  | fuel + 1, l => l.take k :: chunksFuel k fuel (l.drop k)

/-- Split a word list into chunks of `k` words. -/
def chunks (k : Nat) (l : List Nat) : List (List Nat) := chunksFuel k l.length l

/-! ### SHA-1 (FIPS 180-4), modelled from the spec: the node `crypto` hash
primitive used by `createHmac('sha1', …)` is external to the repository. -/

/-- SHA-1 round function `f_t`. -/
def sha1F (t b c d : Nat) : Nat :=
  if t < 20 then (b &&& c) ||| (not32 b &&& d)
  else if t < 40 then b ^^^ c ^^^ d
  else if t < 60 then (b &&& c) ||| (b &&& d) ||| (c &&& d)
  else b ^^^ c ^^^ d

/-- SHA-1 round constant `K_t`. -/
def sha1K (t : Nat) : Nat :=
  if t < 20 then 0x5a827999
  else if t < 40 then 0x6ed9eba1
  else if t < 60 then 0x8f1bbcdc
  else 0xca62c1d6

/-- Extend the (reversed: most recent first) message schedule by `n` words. -/
def sha1Extend (w : List Nat) : Nat → List Nat
  | 0 => w
  | n + 1 =>
    let v := sha1Extend w n
    rotl32 ((v.getD 2 0 ^^^ v.getD 7 0) ^^^ (v.getD 13 0 ^^^ v.getD 15 0)) 1 :: v

/-- One SHA-1 round. State is `(t, a, b, c, d, e)` with `t` the round index. -/
def sha1Round (st : Nat × Nat × Nat × Nat × Nat × Nat) (w : Nat) :
    Nat × Nat × Nat × Nat × Nat × Nat :=
  let (t, a, b, c, d, e) := st
  let tmp := w32 (rotl32 a 5 + sha1F t b c d + e + sha1K t + w)
  (t + 1, tmp, a, rotl32 b 30, c, d)

/-- SHA-1 compression of one 16-word block into the running hash. -/
def sha1Block (h : Nat × Nat × Nat × Nat × Nat) (block : List Nat) :
    Nat × Nat × Nat × Nat × Nat :=
  let (h0, h1, h2, h3, h4) := h
  let w := (sha1Extend block.reverse 64).reverse
  let (_, a, b, c, d, e) := w.foldl sha1Round (0, h0, h1, h2, h3, h4)
  (w32 (h0 + a), w32 (h1 + b), w32 (h2 + c), w32 (h3 + d), w32 (h4 + e))

/-- Merkle–Damgård padding for 64-byte-block hashes: append `0x80`, zeros to
56 mod 64, then the 8-byte big-endian bit length. -/
def pad64 (msg : Bytes) : Bytes :=
  msg ++ 0x80 :: List.replicate ((119 - msg.length % 64) % 64) 0
    ++ beBytes 8 (msg.length * 8)

/-- SHA-1 digest (20 bytes). -/
def sha1 (msg : Bytes) : Bytes :=
  let blocks := chunks 16 (beWords4 (pad64 msg))
  let (h0, h1, h2, h3, h4) :=
    blocks.foldl sha1Block (0x67452301, 0xefcdab89, 0x98badcfe, 0x10325476, 0xc3d2e1f0)
  beBytes 4 h0 ++ beBytes 4 h1 ++ beBytes 4 h2 ++ beBytes 4 h3 ++ beBytes 4 h4

/-! ### HMAC (RFC 2104), modelled from the spec: the node `createHmac`
primitive is external to the repository. -/

/-- Generic HMAC over a hash with the given block size. -/
def hmac (hash : Bytes → Bytes) (blockSize : Nat) (key msg : Bytes) : Bytes :=
  let k0 := if blockSize < key.length then hash key else key
  let k := k0 ++ List.replicate (blockSize - k0.length) 0
  hash ((k.map fun b => b ^^^ 0x5c) ++ hash ((k.map fun b => b ^^^ 0x36) ++ msg))

/-! ### SHA-256 (FIPS 180-4), modelled from the spec: the node `crypto` hash
primitive used by `createHmac('sha256', …)` is external to the repository. -/

/-- SHA-256 round constants. -/
def k256 : List Nat :=
  [1116352408, 1899447441, 3049323471, 3921009573, 961987163, 1508970993,
   2453635748, 2870763221, 3624381080, 310598401, 607225278, 1426881987,
   1925078388, 2162078206, 2614888103, 3248222580, 3835390401, 4022224774,
   264347078, 604807628, 770255983, 1249150122, 1555081692, 1996064986,
   2554220882, 2821834349, 2952996808, 3210313671, 3336571891, 3584528711,
   113926993, 338241895, 666307205, 773529912, 1294757372, 1396182291,
   1695183700, 1986661051, 2177026350, 2456956037, 2730485921, 2820302411,
   3259730800, 3345764771, 3516065817, 3600352804, 4094571909, 275423344,
   430227734, 506948616, 659060556, 883997877, 958139571, 1322822218,
   1537002063, 1747873779, 1955562222, 2024104815, 2227730452, 2361852424,
   2428436474, 2756734187, 3204031479, 3329325298]

/-- SHA-256 small sigma 0. -/
def ssig0 (x : Nat) : Nat := (rotr32 x 7 ^^^ rotr32 x 18) ^^^ (x >>> 3)

/-- SHA-256 small sigma 1. -/
def ssig1 (x : Nat) : Nat := (rotr32 x 17 ^^^ rotr32 x 19) ^^^ (x >>> 10)

/-- SHA-256 big sigma 0. -/
def bsig0 (x : Nat) : Nat := (rotr32 x 2 ^^^ rotr32 x 13) ^^^ rotr32 x 22

/-- SHA-256 big sigma 1. -/
def bsig1 (x : Nat) : Nat := (rotr32 x 6 ^^^ rotr32 x 11) ^^^ rotr32 x 25

/-- Extend the (reversed) SHA-256 message schedule by `n` words. -/
def sha256Extend (w : List Nat) : Nat → List Nat
  | 0 => w
  | n + 1 =>
    let v := sha256Extend w n
    w32 (ssig1 (v.getD 1 0) + v.getD 6 0 + ssig0 (v.getD 14 0) + v.getD 15 0) :: v

/-- SHA-2 state: eight working words. -/
abbrev Sha2St := Nat × Nat × Nat × Nat × Nat × Nat × Nat × Nat

/-- One SHA-256 round, consuming a pair of (schedule word, round constant). -/
def sha256Round (st : Sha2St) (wk : Nat × Nat) : Sha2St :=
  let (a, b, c, d, e, f, g, h) := st
  let t1 := w32 (h + bsig1 e + ((e &&& f) ^^^ (not32 e &&& g)) + wk.2 + wk.1)
  let t2 := w32 (bsig0 a + ((a &&& b) ^^^ (a &&& c) ^^^ (b &&& c)))
  (w32 (t1 + t2), a, b, c, w32 (d + t1), e, f, g)

/-- SHA-256 compression of one 16-word block. -/
def sha256Block (h : Sha2St) (block : List Nat) : Sha2St :=
  let (h0, h1, h2, h3, h4, h5, h6, h7) := h
  let w := (sha256Extend block.reverse 48).reverse
  let (a, b, c, d, e, f, g, hh) :=
    (w.zip k256).foldl sha256Round (h0, h1, h2, h3, h4, h5, h6, h7)
  (w32 (h0 + a), w32 (h1 + b), w32 (h2 + c), w32 (h3 + d),
   w32 (h4 + e), w32 (h5 + f), w32 (h6 + g), w32 (h7 + hh))

/-- SHA-256 digest (32 bytes). -/
def sha256 (msg : Bytes) : Bytes :=
  let blocks := chunks 16 (beWords4 (pad64 msg))
  let (h0, h1, h2, h3, h4, h5, h6, h7) :=
    blocks.foldl sha256Block
      (0x6a09e667, 0xbb67ae85, 0x3c6ef372, 0xa54ff53a,
       0x510e527f, 0x9b05688c, 0x1f83d9ab, 0x5be0cd19)
  beBytes 4 h0 ++ beBytes 4 h1 ++ beBytes 4 h2 ++ beBytes 4 h3
    ++ beBytes 4 h4 ++ beBytes 4 h5 ++ beBytes 4 h6 ++ beBytes 4 h7

/-! ### SHA-512 (FIPS 180-4), modelled from the spec: the node `crypto` hash
primitive used by `createHmac('sha512', …)` is external to the repository. -/

/-- Truncate to a 64-bit word. -/
def w64 (x : Nat) : Nat := x % 2 ^ 64

/-- Right rotation of a 64-bit word. -/
def rotr64 (x n : Nat) : Nat := w64 ((x >>> n) ||| (x <<< (64 - n)))

/-- Bitwise complement within 64 bits. -/
def not64 (x : Nat) : Nat := x ^^^ 0xffffffffffffffff

/-- SHA-512 round constants. -/
def k512 : List Nat :=
  [4794697086780616226, 8158064640168781261, 13096744586834688815, 16840607885511220156,
   4131703408338449720, 6480981068601479193, 10538285296894168987, 12329834152419229976,
   15566598209576043074, 1334009975649890238, 2608012711638119052, 6128411473006802146,
   8268148722764581231, 9286055187155687089, 11230858885718282805, 13951009754708518548,
   16472876342353939154, 17275323862435702243, 1135362057144423861, 2597628984639134821,
   3308224258029322869, 5365058923640841347, 6679025012923562964, 8573033837759648693,
   10970295158949994411, 12119686244451234320, 12683024718118986047, 13788192230050041572,
   14330467153632333762, 15395433587784984357, 489312712824947311, 1452737877330783856,
   2861767655752347644, 3322285676063803686, 5560940570517711597, 5996557281743188959,
   7280758554555802590, 8532644243296465576, 9350256976987008742, 10552545826968843579,
   11727347734174303076, 12113106623233404929, 14000437183269869457, 14369950271660146224,
   15101387698204529176, 15463397548674623760, 17586052441742319658, 1182934255886127544,
   1847814050463011016, 2177327727835720531, 2830643537854262169, 3796741975233480872,
   4115178125766777443, 5681478168544905931, 6601373596472566643, 7507060721942968483,
   8399075790359081724, 8693463985226723168, 9568029438360202098, 10144078919501101548,
   10430055236837252648, 11840083180663258601, 13761210420658862357, 14299343276471374635,
   14566680578165727644, 15097957966210449927, 16922976911328602910, 17689382322260857208,
   500013540394364858, 748580250866718886, 1242879168328830382, 1977374033974150939,
   2944078676154940804, 3659926193048069267, 4368137639120453308, 4836135668995329356,
   5532061633213252278, 6448918945643986474, 6902733635092675308, 7801388544844847127]

/-- SHA-512 small sigma 0. -/
def ssig0L (x : Nat) : Nat := (rotr64 x 1 ^^^ rotr64 x 8) ^^^ (x >>> 7)

/-- SHA-512 small sigma 1. -/
def ssig1L (x : Nat) : Nat := (rotr64 x 19 ^^^ rotr64 x 61) ^^^ (x >>> 6)

/-- SHA-512 big sigma 0. -/
def bsig0L (x : Nat) : Nat := (rotr64 x 28 ^^^ rotr64 x 34) ^^^ rotr64 x 39

/-- SHA-512 big sigma 1. -/
def bsig1L (x : Nat) : Nat := (rotr64 x 14 ^^^ rotr64 x 18) ^^^ rotr64 x 41

/-- Extend the (reversed) SHA-512 message schedule by `n` words. -/
def sha512Extend (w : List Nat) : Nat → List Nat
  | 0 => w
  | n + 1 =>
    let v := sha512Extend w n
    w64 (ssig1L (v.getD 1 0) + v.getD 6 0 + ssig0L (v.getD 14 0) + v.getD 15 0) :: v

/-- One SHA-512 round, consuming a pair of (schedule word, round constant). -/
def sha512Round (st : Sha2St) (wk : Nat × Nat) : Sha2St :=
  let (a, b, c, d, e, f, g, h) := st
  let t1 := w64 (h + bsig1L e + ((e &&& f) ^^^ (not64 e &&& g)) + wk.2 + wk.1)
  let t2 := w64 (bsig0L a + ((a &&& b) ^^^ (a &&& c) ^^^ (b &&& c)))
  (w64 (t1 + t2), a, b, c, w64 (d + t1), e, f, g)

/-- Group a byte list into big-endian 64-bit words (8 bytes per word). -/
def beWords8 : Bytes → List Nat
  | b0 :: b1 :: b2 :: b3 :: b4 :: b5 :: b6 :: b7 :: rest =>
    (((((((b0 * 256 + b1) * 256 + b2) * 256 + b3) * 256 + b4) * 256 + b5) * 256 + b6)
      * 256 + b7) :: beWords8 rest
  | _ => []

/-- Merkle–Damgård padding for 128-byte-block hashes: append `0x80`, zeros to
112 mod 128, then the 16-byte big-endian bit length. -/
def pad128 (msg : Bytes) : Bytes :=
  msg ++ 0x80 :: List.replicate ((239 - msg.length % 128) % 128) 0
    ++ beBytes 16 (msg.length * 8)

/-- SHA-512 compression of one 16-word block. -/
def sha512Block (h : Sha2St) (block : List Nat) : Sha2St :=
  let (h0, h1, h2, h3, h4, h5, h6, h7) := h
  let w := (sha512Extend block.reverse 64).reverse
  let (a, b, c, d, e, f, g, hh) :=
    (w.zip k512).foldl sha512Round (h0, h1, h2, h3, h4, h5, h6, h7)
  (w64 (h0 + a), w64 (h1 + b), w64 (h2 + c), w64 (h3 + d),
   w64 (h4 + e), w64 (h5 + f), w64 (h6 + g), w64 (h7 + hh))

/-- SHA-512 digest (64 bytes). -/
def sha512 (msg : Bytes) : Bytes :=
  let blocks := chunks 16 (beWords8 (pad128 msg))
  let (h0, h1, h2, h3, h4, h5, h6, h7) :=
    blocks.foldl sha512Block
      (0x6a09e667f3bcc908, 0xbb67ae8584caa73b, 0x3c6ef372fe94f82b, 0xa54ff53a5f1d36f1,
       0x510e527fade682d1, 0x9b05688c2b3e6c1f, 0x1f83d9abfb41bd6b, 0x5be0cd19137e2179)
  beBytes 8 h0 ++ beBytes 8 h1 ++ beBytes 8 h2 ++ beBytes 8 h3
    ++ beBytes 8 h4 ++ beBytes 8 h5 ++ beBytes 8 h6 ++ beBytes 8 h7

/-- HMAC-SHA1. -/
def hmacSha1 (key msg : Bytes) : Bytes := hmac sha1 64 key msg

/-- HMAC-SHA256. -/
def hmacSha256 (key msg : Bytes) : Bytes := hmac sha256 64 key msg

/-- HMAC-SHA512 (block size 128 bytes). -/
def hmacSha512 (key msg : Bytes) : Bytes := hmac sha512 128 key msg

/-! ### JavaScript strings

A JavaScript string is its sequence of UTF-16 code units; we embed it as
`List Nat`.  `strUnits` converts a Lean string literal (all our literals are
ASCII, where code points and code units coincide) to that model. -/

/-- Code units of a Lean string literal (faithful for ASCII/BMP literals). -/
def strUnits (s : String) : List Nat := s.data.map Char.toNat

/-- UTF-8 encoding of one non-surrogate code unit (lone surrogates become the
replacement character `EF BF BD`, as in node's `Buffer.from(string, 'utf8')`). -/
def utf8One (u : Nat) : Bytes :=
  if u < 0x80 then [u]
  else if u < 0x800 then [0xc0 + u / 0x40, 0x80 + u % 0x40]
  else if u < 0xd800 ∨ 0xe000 ≤ u then
    [0xe0 + u / 0x1000, 0x80 + u / 0x40 % 0x40, 0x80 + u % 0x40]
  else [0xef, 0xbf, 0xbd]

/-- UTF-8 encoding of a UTF-16 code-unit sequence, as produced by node's
`Buffer.from(string, 'utf8')`: surrogate pairs combine into one code point. -/
def utf8Bytes : List Nat → Bytes
  | [] => []
  | [u] => utf8One u
  | u :: u2 :: rest2 =>
    if 0xd800 ≤ u ∧ u < 0xdc00 ∧ 0xdc00 ≤ u2 ∧ u2 < 0xe000 then
      let cp := 0x10000 + (u - 0xd800) * 0x400 + (u2 - 0xdc00)
      (0xf0 + cp / 0x40000) :: (0x80 + cp / 0x1000 % 0x40) :: (0x80 + cp / 0x40 % 0x40)
        :: (0x80 + cp % 0x40) :: utf8Bytes rest2
    else utf8One u ++ utf8Bytes (u2 :: rest2)

/-! ### Types (`src/types/index.ts`) -/

/-- Supported OTP algorithms (`OTPAlgorithm = 'SHA1' | 'SHA256' | 'SHA512'`). -/
inductive OTPAlgorithm
  | SHA1
  | SHA256
  | SHA512
deriving DecidableEq

/-- Error kinds (`OTPError`).  The human-readable messages carried by
`OTPException` are elided: no claim concerns them. -/
inductive OTPError
  | INVALID_SECRET
  | INVALID_ALGORITHM
  | INVALID_DIGITS
  | INVALID_PERIOD
  | INVALID_COUNTER
  | INVALID_TOKEN
  | EXPIRED_TOKEN
deriving DecidableEq

/-- Every error the embedded code can throw: `OTPException`s with their kind
tag, the plain `Error`s of `totp.ts`, the `UnexpectedCaseError` of
`validation.ts`, and node's `ERR_OUT_OF_RANGE` from `Buffer.writeUInt32BE`. -/
inductive JSError
  | otp (code : OTPError)
  | unexpectedCase
  | hashGenerationFailed
  | invalidHashOffset
  | invalidHashBytes
  | outOfRange
deriving DecidableEq

/-- `TOTPConfig`.  `digits` and `period` are JS numbers; every claim
exercises only non-negative integral values, so they are embedded as `Nat`
(genuinely signed quantities — time-step offsets, `delta` — use `Int`). -/
structure TOTPConfig where
  secret : List Nat
  algorithm : OTPAlgorithm
  digits : Nat
  period : Nat
deriving DecidableEq

/-- `OTPResult` for TOTP: the token and the (ceiled) remaining seconds. -/
structure OTPResult where
  token : List Nat
  remainingTime : Nat
deriving DecidableEq

/-- `ValidationResult`: `delta` is absent (`none`) on failure. -/
structure ValidationResult where
  isValid : Bool
  delta : Option Int
deriving DecidableEq

instance {ε α : Type} [DecidableEq ε] [DecidableEq α] : DecidableEq (Except ε α) := fun a b =>
  match a, b with
  | .error x, .error y =>
    if h : x = y then .isTrue (by rw [h]) else .isFalse (by intro hc; injection hc; contradiction)
  | .error _, .ok _ => .isFalse (by intro hc; injection hc)
  | .ok _, .error _ => .isFalse (by intro hc; injection hc)
  | .ok x, .ok y =>
    if h : x = y then .isTrue (by rw [h]) else .isFalse (by intro hc; injection hc; contradiction)

/-! ### Base32 decoding (`src/utils/crypto.ts`)

`decodeSecretForHMAC` delegates the raw decoding to the external `hi-base32`
package; that codec is modelled from the spec (RFC 4648 base32: 5 bits per
character, most significant first, incomplete trailing bits dropped). -/

/-- JavaScript `\s` (the code units matched by `/\s/` in `String.replace`). -/
def isJsSpace (u : Nat) : Bool :=
  u == 9 || u == 10 || u == 11 || u == 12 || u == 13 || u == 32 || u == 0xa0
    || u == 0x1680 || (decide (0x2000 ≤ u) && decide (u ≤ 0x200a)) || u == 0x2028
    || u == 0x2029 || u == 0x202f || u == 0x205f || u == 0x3000 || u == 0xfeff

/-- ASCII upper-casing of a code unit, as `String.toUpperCase` acts on the
characters this code path can meet (the subsequent `[A-Z2-7]+=*` format check
rejects everything outside the base32 alphabet either way). -/
def asciiUpper (u : Nat) : Nat := if 97 ≤ u ∧ u ≤ 122 then u - 32 else u

/-- Is the code unit a base32 alphabet character (`A`–`Z`, `2`–`7`)? -/
def isB32Unit (u : Nat) : Bool :=
  (decide (65 ≤ u) && decide (u ≤ 90)) || (decide (50 ≤ u) && decide (u ≤ 55))

/-- The regex `/^[A-Z2-7]+=*$/`: a non-empty run of base32 characters
followed only by `=` padding. -/
def b32Format (l : List Nat) : Bool :=
  let p := l.takeWhile isB32Unit
  decide (p ≠ []) && (l.drop p.length).all (· == 61)

/-- Value of a base32 alphabet character (only applied to such characters). -/
def b32Val (u : Nat) : Nat := if 65 ≤ u ∧ u ≤ 90 then u - 65 else u - 24

/-- Modelled from the spec: RFC 4648 base32 bit stream decoding as performed
by `hi-base32`'s `decode.asBytes` — accumulate 5 bits per character, emit each
completed byte, drop incomplete trailing bits.  `buf` holds `bits < 8`
pending bits. -/
def b32DecodeCore : List Nat → Nat → Nat → Bytes
  | [], _, _ => []
  | u :: rest, buf, bits =>
    let buf2 := buf * 32 + b32Val u
    let bits2 := bits + 5
    if 8 ≤ bits2 then
      (buf2 >>> (bits2 - 8)) :: b32DecodeCore rest (buf2 % 2 ^ (bits2 - 8)) (bits2 - 8)
    else b32DecodeCore rest buf2 bits2

/-- `decodeSecretForHMAC` (`src/utils/crypto.ts`): reject empty input, strip
whitespace and upper-case, enforce the base32 format, then decode (the
`hi-base32` call cannot throw on format-checked input, so the `catch` branch
is dead). -/
def decodeSecretForHMAC (base32Secret : List Nat) : Except JSError Bytes :=
  if base32Secret = [] then .error (.otp .INVALID_SECRET)
  else
    let cleanSecret := (base32Secret.filter fun u => !isJsSpace u).map asciiUpper
    if !b32Format cleanSecret then .error (.otp .INVALID_SECRET)
    else .ok (b32DecodeCore (cleanSecret.takeWhile isB32Unit) 0 0)

/-! ### Parameter validation (`src/utils/validation.ts`) -/

/-- `getSecretLength`.  The parameter is an `Option` because `TOTP`'s
`validateConfig` calls `validateSecret(config.secret)` with the algorithm
argument omitted, so at run time `getSecretLength` can receive `undefined`
(`none`), hitting the `default` branch that throws `UnexpectedCaseError`. -/
def getSecretLength : Option OTPAlgorithm → Except JSError Nat
  | some .SHA1 => .ok 20
  | some .SHA256 => .ok 32
  | some .SHA512 => .ok 64
  | none => .error .unexpectedCase

/-- `validateSecret(secret, algorithm)`. -/
def validateSecret (secret : List Nat) (algorithm : Option OTPAlgorithm) :
    Except JSError Unit :=
  if secret = [] then .error (.otp .INVALID_SECRET)
  else
    match decodeSecretForHMAC secret with
    | .error e => .error e
    | .ok decodedSecret =>
      match getSecretLength algorithm with
      | .error e => .error e
      | .ok expectedLength =>
        if decodedSecret.length ≠ expectedLength then .error (.otp .INVALID_SECRET)
        else .ok ()

/-- `validateAlgorithm`: always succeeds here because the embedded
`OTPAlgorithm` type already enumerates exactly the valid algorithms the
runtime check tests membership in. -/
def validateAlgorithm (_ : OTPAlgorithm) : Except JSError Unit := .ok ()

/-- `validateDigits`: integer in `[6, 8]` (integrality holds by the `Nat`
model). -/
def validateDigits (digits : Nat) : Except JSError Unit :=
  if digits < 6 ∨ 8 < digits then .error (.otp .INVALID_DIGITS) else .ok ()

/-- `validatePeriod`: positive integer. -/
def validatePeriod (period : Nat) : Except JSError Unit :=
  if period = 0 then .error (.otp .INVALID_PERIOD) else .ok ()

/-- `validateCounter`: non-negative integer. -/
def validateCounter (counter : Int) : Except JSError Unit :=
  if counter < 0 then .error (.otp .INVALID_COUNTER) else .ok ()

/-- `validateToken`: non-empty, all digits (`/^\d+$/`), exact length. -/
def validateToken (token : List Nat) (expectedLength : Nat) : Except JSError Unit :=
  if token = [] then .error (.otp .INVALID_TOKEN)
  else if !(token.all fun u => decide (48 ≤ u) && decide (u ≤ 57)) then
    .error (.otp .INVALID_TOKEN)
  else if token.length ≠ expectedLength then .error (.otp .INVALID_TOKEN)
  else .ok ()

/-! ### The TOTP class (`src/lib/totp.ts`)

The methods are embedded as functions of the stored configuration (`this.config`).
Timestamps are milliseconds as `Nat` (`Date.now()` is non-negative; every claim
supplies an explicit non-negative timestamp). -/

/-- Decimal rendering of a natural number (`Number.prototype.toString`),
as code units; the first argument is fuel making the recursion structural. -/
def digitUnits : Nat → Nat → List Nat
  | 0, _ => []
  | _ + 1, 0 => []
  | fuel + 1, m => digitUnits fuel (m / 10) ++ [48 + m % 10]

/-- `token.toString()` for a natural number: its decimal code units. -/
def natDecimal (n : Nat) : List Nat := if n = 0 then [48] else digitUnits n n

/-- `String.prototype.padStart(targetLength, pad)` on code units (pads with a
single unit; never truncates). -/
def padStartUnits (s : List Nat) (targetLength pad : Nat) : List Nat :=
  List.replicate (targetLength - s.length) pad ++ s

/-- Numeric value of a decimal code-unit string (used to state claims about
the token's value; not part of the source). -/
def digitsToNat (l : List Nat) : Nat := l.foldl (fun a u => a * 10 + (u - 48)) 0

/-- JavaScript `ToInt32` (the coercion applied by bitwise operators). -/
def toInt32 (x : Int) : Int :=
  let m := x % (2 ^ 32 : Int)
  if 2 ^ 31 ≤ m then m - 2 ^ 32 else m

namespace TOTPm

/-- `createTimeBuffer`: `writeUInt32BE(Math.floor(timeStep / 0x100000000), 0)`
then `writeUInt32BE(timeStep & 0xffffffff, 4)`.  The `&` coerces through
`ToInt32`, so a time step whose low 32 bits have the sign bit set produces a
negative number, which `writeUInt32BE` rejects with `ERR_OUT_OF_RANGE`
(modelled as `outOfRange`); likewise a high word beyond 32 bits. -/
def createTimeBuffer (timeStep : Int) : Except JSError Bytes :=
  let hi := Int.fdiv timeStep (2 ^ 32)
  let lo := toInt32 timeStep
  if hi < 0 ∨ (2 ^ 32 : Int) ≤ hi then .error .outOfRange
  else if lo < 0 ∨ (2 ^ 32 : Int) ≤ lo then .error .outOfRange
  else .ok (beBytes 4 hi.toNat ++ beBytes 4 lo.toNat)

/-- `generateHMAC`: `createHmac(this.config.algorithm.toLowerCase(),
this.config.secret)` — the HMAC key is the UTF-8 encoding of the configured
secret STRING itself (not the bytes the base32 text decodes to). -/
def generateHMAC (cfg : TOTPConfig) (timeBuffer : Bytes) : Bytes :=
  match cfg.algorithm with
  | .SHA1 => hmacSha1 (utf8Bytes cfg.secret) timeBuffer
  | .SHA256 => hmacSha256 (utf8Bytes cfg.secret) timeBuffer
  | .SHA512 => hmacSha512 (utf8Bytes cfg.secret) timeBuffer

/-- `performDynamicTruncation`. -/
def performDynamicTruncation (hash : Bytes) : Except JSError Nat :=
  match hash.getLast? with
  | none => .error .hashGenerationFailed
  | some lastByte =>
    let offset := lastByte &&& 0x0f
    if hash.length < offset + 4 then .error .invalidHashOffset
    else
      match hash.get? offset, hash.get? (offset + 1),
          hash.get? (offset + 2), hash.get? (offset + 3) with
      | some byte0, some byte1, some byte2, some byte3 =>
        .ok ((((byte0 &&& 0x7f) <<< 24) ||| ((byte1 &&& 0xff) <<< 16))
          ||| (((byte2 &&& 0xff) <<< 8) ||| (byte3 &&& 0xff)))
      | _, _, _, _ => .error .invalidHashBytes

/-- `generateToken(timeStep)`. -/
def generateToken (cfg : TOTPConfig) (timeStep : Int) : Except JSError (List Nat) :=
  match validateCounter timeStep with
  | .error e => .error e
  | .ok _ =>
    match createTimeBuffer timeStep with
    | .error e => .error e
    | .ok timeBuffer =>
      let hash := generateHMAC cfg timeBuffer
      match performDynamicTruncation hash with
      | .error e => .error e
      | .ok truncatedHash =>
        let token := truncatedHash % 10 ^ cfg.digits
        .ok (padStartUnits (natDecimal token) cfg.digits 48)

/-- `constantTimeEquals`: length check, then an accumulated bitwise
difference over all positions (for equal lengths, the indexed `charCodeAt`
loop is the fold over the zipped unit sequences). -/
def constantTimeEquals (a b : List Nat) : Bool :=
  if a.length ≠ b.length then false
  else ((a.zip b).foldl (fun r p => r ||| (p.1 ^^^ p.2)) 0) == 0

/-- `generate(timestamp)`: the time step is
`Math.floor(timestamp / 1000 / period)`, and the remaining time is
`Math.ceil(period - ((timestamp / 1000) % period))`, computed here exactly
over the millisecond grid. -/
def generate (cfg : TOTPConfig) (timestamp : Nat) : Except JSError OTPResult :=
  let timeStep := timestamp / 1000 / cfg.period
  match generateToken cfg (timeStep : Int) with
  | .error e => .error e
  | .ok token =>
    .ok ⟨token, (cfg.period * 1000 - timestamp % (cfg.period * 1000) + 999) / 1000⟩

/-- `getCurrentTimeStep(timestamp)`. -/
def getCurrentTimeStep (cfg : TOTPConfig) (timestamp : Nat) : Nat :=
  timestamp / 1000 / cfg.period

/-- The `for (let i = -window; i <= window; i++)` loop body of `validate`:
`i` is the current offset, `rem` the remaining number of iterations. -/
def validateLoop (cfg : TOTPConfig) (token : List Nat) (base : Int) :
    Int → Nat → Except JSError ValidationResult
  | _, 0 => .ok ⟨false, none⟩
  | i, rem + 1 =>
    match generateToken cfg (base + i) with
    | .error e => .error e
    | .ok expectedToken =>
      if constantTimeEquals token expectedToken then .ok ⟨true, some i⟩
      else validateLoop cfg token base (i + 1) rem

/-- `validate(token, timestamp, window = 1)`. -/
def validate (cfg : TOTPConfig) (token : List Nat) (timestamp : Nat)
    (window : Nat) : Except JSError ValidationResult :=
  match validateToken token cfg.digits with
  | .error e => .error e
  | .ok _ =>
    let currentTimeStep : Int := (timestamp / 1000 / cfg.period : Nat)
    validateLoop cfg token currentTimeStep (-(window : Int)) (2 * window + 1)

/-- `validateConfig` (the private method run by the constructor).  The source
calls `validateSecret(config.secret)` with the algorithm argument omitted, so
`validateSecret` receives `undefined` (`none`) for it. -/
def validateConfig (config : TOTPConfig) : Except JSError Unit :=
  match validateSecret config.secret none with
  | .error e => .error e
  | .ok _ =>
    match validateAlgorithm config.algorithm with
    | .error e => .error e
    | .ok _ =>
      match validateDigits config.digits with
      | .error e => .error e
      | .ok _ => validatePeriod config.period

end TOTPm

/-- A constructed `TOTP` instance (it stores a copy of its configuration). -/
structure TOTP where
  config : TOTPConfig
deriving DecidableEq

/-- The `TOTP` constructor: validate, then store the configuration. -/
def TOTP.new (config : TOTPConfig) : Except JSError TOTP :=
  match TOTPm.validateConfig config with
  | .error e => .error e
  | .ok _ => .ok ⟨config⟩

/-! ### Concrete configurations used by witnesses and counterexamples -/

/-- The RFC 6238 SHA-1 test configuration: the secret is the base32 encoding
of the 20-byte ASCII secret `"12345678901234567890"`, 8 digits, period 30. -/
def rfcSha1Config : TOTPConfig :=
  { secret := strUnits "GEZDGNBVGY3TQOJQGEZDGNBVGY3TQOJQ"
    algorithm := .SHA1, digits := 8, period := 30 }

/-- A configuration whose secret is valid base32 but decodes to 10 bytes,
not the 20 bytes SHA-1 requires. -/
def shortSecretConfig : TOTPConfig :=
  { secret := strUnits "GEZDGNBVGY3TQOJQ"
    algorithm := .SHA1, digits := 6, period := 30 }

/-- Modelled from the spec: the Token Engine contract
`derive(secret, algorithm, counter, digits)` of §4.1, whose HMAC key is the
secret's raw decoded BYTES (the source instead keys the HMAC with the base32
text itself); used to check the claimed RFC test-vector outputs. -/
def deriveSpec (secretBytes : Bytes) (alg : OTPAlgorithm) (counter digits : Nat) :
    Except JSError (List Nat) :=
  let msg := beBytes 8 counter
  let hash :=
    match alg with
    | .SHA1 => hmacSha1 secretBytes msg
    | .SHA256 => hmacSha256 secretBytes msg
    | .SHA512 => hmacSha512 secretBytes msg
  match TOTPm.performDynamicTruncation hash with
  | .error e => .error e
  | .ok p => .ok (padStartUnits (natDecimal (p % 10 ^ digits)) digits 48)

/-- The 20-byte RFC ASCII secret. -/
def rfcSecret20 : Bytes := strUnits "12345678901234567890"

/-- The 32-byte RFC ASCII secret. -/
def rfcSecret32 : Bytes := strUnits "12345678901234567890123456789012"

/-- The 64-byte RFC ASCII secret. -/
def rfcSecret64 : Bytes :=
  strUnits "1234567890123456789012345678901234567890123456789012345678901234"

/-! ### Helper lemmas: bitwise accumulation (constant-time comparison) -/

theorem lor_eq_zero_iff {x y : Nat} : x ||| y = 0 ↔ x = 0 ∧ y = 0 := by
  constructor
  · intro h
    constructor
    · by_contra hx
      obtain ⟨i, hi⟩ := Nat.ne_zero_implies_bit_true hx
      have hb : (x ||| y).testBit i = true := by simp [Nat.testBit_or, hi]
      rw [h] at hb
      simp at hb
    · by_contra hy
      obtain ⟨i, hi⟩ := Nat.ne_zero_implies_bit_true hy
      have hb : (x ||| y).testBit i = true := by simp [Nat.testBit_or, hi]
      rw [h] at hb
      simp at hb
  · rintro ⟨rfl, rfl⟩
    simp

theorem ctFold_eq_zero (l : List (Nat × Nat)) :
    ∀ acc, (l.foldl (fun r p => r ||| (p.1 ^^^ p.2)) acc = 0 ↔
      acc = 0 ∧ ∀ p ∈ l, p.1 = p.2) := by
  induction l with
  | nil => simp
  | cons q t ih =>
    intro acc
    simp only [List.foldl_cons, ih, lor_eq_zero_iff, Nat.xor_eq_zero, List.mem_cons]
    constructor
    · rintro ⟨⟨h1, h2⟩, h3⟩
      exact ⟨h1, fun p hp => by rcases hp with rfl | hp; exact h2; exact h3 p hp⟩
    · rintro ⟨h1, h2⟩
      exact ⟨⟨h1, h2 q (Or.inl rfl)⟩, fun p hp => h2 p (Or.inr hp)⟩

theorem zip_self_fst_eq_snd (a : List Nat) : ∀ p ∈ a.zip a, p.1 = p.2 := by
  induction a with
  | nil => simp
  | cons x t ih =>
    intro p hp
    rcases List.mem_cons.mp hp with rfl | hp
    · rfl
    · exact ih p hp

theorem eq_of_zip_eq (a : List Nat) :
    ∀ b : List Nat, a.length = b.length → (∀ p ∈ a.zip b, p.1 = p.2) → a = b := by
  induction a with
  | nil => intro b hb _; cases b; rfl; cases hb
  | cons x t ih =>
    intro b hb hall
    cases b with
    | nil => cases hb
    | cons y s =>
      have hx : x = y := hall (x, y) (List.mem_cons_self _ _)
      have ht : t = s := by
        refine ih s ?_ ?_
        · simpa using hb
        · intro p hp; exact hall p (List.mem_cons_of_mem _ hp)
      rw [hx, ht]

theorem constantTimeEquals_eq_iff (a b : List Nat) :
    TOTPm.constantTimeEquals a b = true ↔ a = b := by
  unfold TOTPm.constantTimeEquals
  by_cases h : a.length = b.length
  · rw [if_neg (by simp [h]), beq_iff_eq, ctFold_eq_zero]
    constructor
    · rintro ⟨-, hall⟩
      exact eq_of_zip_eq a b h hall
    · rintro rfl
      exact ⟨rfl, zip_self_fst_eq_snd a⟩
  · rw [if_pos (by simp [h])]
    constructor
    · intro hf; cases hf
    · rintro rfl; exact absurd rfl h

/-! ### Helper lemmas: decimal rendering and padding -/

theorem digitUnits_digits : ∀ fuel m, ∀ u ∈ digitUnits fuel m, 48 ≤ u ∧ u ≤ 57 := by
  intro fuel
  induction fuel with
  | zero => intro m u hu; cases hu
  | succ f ih =>
    intro m u hu
    match m with
    | 0 => cases hu
    | k + 1 =>
      rw [show digitUnits (f + 1) (k + 1)
          = digitUnits f ((k + 1) / 10) ++ [48 + (k + 1) % 10] from rfl] at hu
      rcases List.mem_append.mp hu with hu | hu
      · exact ih _ u hu
      · rcases List.mem_singleton.mp hu with rfl
        have : (k + 1) % 10 < 10 := Nat.mod_lt _ (by omega)
        omega

theorem digitUnits_length : ∀ fuel m d, m < 10 ^ d → (digitUnits fuel m).length ≤ d := by
  intro fuel
  induction fuel with
  | zero => intro m d _; simp [digitUnits]
  | succ f ih =>
    intro m d hm
    match m with
    | 0 => simp [digitUnits]
    | k + 1 =>
      rw [show digitUnits (f + 1) (k + 1)
          = digitUnits f ((k + 1) / 10) ++ [48 + (k + 1) % 10] from rfl]
      match d with
      | 0 => simp at hm
      | e + 1 =>
        have hdiv : (k + 1) / 10 < 10 ^ e := by
          rw [Nat.div_lt_iff_lt_mul (by omega)]
          calc k + 1 < 10 ^ (e + 1) := hm
          _ = 10 ^ e * 10 := by rw [Nat.pow_succ]
        have := ih ((k + 1) / 10) e hdiv
        simp only [List.length_append, List.length_singleton]
        omega

theorem digitsToNat_append_digit (l : List Nat) (x : Nat) :
    digitsToNat (l ++ [x]) = 10 * digitsToNat l + (x - 48) := by
  simp [digitsToNat, List.foldl_append, Nat.mul_comm]

theorem digitsToNat_digitUnits : ∀ fuel m, m ≤ fuel → digitsToNat (digitUnits fuel m) = m := by
  intro fuel
  induction fuel with
  | zero =>
    intro m hm
    interval_cases m
    simp [digitUnits, digitsToNat]
  | succ f ih =>
    intro m hm
    match m with
    | 0 => simp [digitUnits, digitsToNat]
    | k + 1 =>
      rw [show digitUnits (f + 1) (k + 1)
          = digitUnits f ((k + 1) / 10) ++ [48 + (k + 1) % 10] from rfl,
        digitsToNat_append_digit, ih ((k + 1) / 10) (by omega)]
      omega

theorem natDecimal_length (n d : Nat) (hn : n < 10 ^ d) (hd : 0 < d) :
    (natDecimal n).length ≤ d := by
  unfold natDecimal
  split
  · simpa using hd
  · exact digitUnits_length n n d hn

theorem natDecimal_digits (n : Nat) : ∀ u ∈ natDecimal n, 48 ≤ u ∧ u ≤ 57 := by
  unfold natDecimal
  split
  · intro u hu; rcases List.mem_singleton.mp hu with rfl; omega
  · exact digitUnits_digits n n

theorem digitsToNat_natDecimal (n : Nat) : digitsToNat (natDecimal n) = n := by
  unfold natDecimal
  split
  · simp_all [digitsToNat]
  · exact digitsToNat_digitUnits n n le_rfl

theorem padStartUnits_length (s : List Nat) (n p : Nat) :
    (padStartUnits s n p).length = max n s.length := by
  simp [padStartUnits]
  omega

theorem padStartUnits_mem (s : List Nat) (n p : Nat) :
    ∀ u ∈ padStartUnits s n p, u = p ∨ u ∈ s := by
  intro u hu
  rcases List.mem_append.mp hu with hu | hu
  · exact Or.inl (List.eq_of_mem_replicate hu)
  · exact Or.inr hu

theorem digitsToNat_padStart_zeros (s : List Nat) (n : Nat) :
    digitsToNat (padStartUnits s n 48) = digitsToNat s := by
  unfold padStartUnits digitsToNat
  rw [List.foldl_append]
  have hz : ∀ k : Nat, (List.replicate k 48).foldl (fun a u => a * 10 + (u - 48)) 0 = 0 := by
    intro k
    induction k with
    | zero => rfl
    | succ j ihj => simpa [List.replicate_succ] using ihj
  rw [hz]

/-! ### Helper lemmas: structure of `generateToken` and the validation loop -/

theorem generateToken_ok {cfg : TOTPConfig} {ts : Int} {tok : List Nat}
    (h : TOTPm.generateToken cfg ts = .ok tok) :
    ∃ buf P, TOTPm.createTimeBuffer ts = .ok buf ∧
      TOTPm.performDynamicTruncation (TOTPm.generateHMAC cfg buf) = .ok P ∧
      tok = padStartUnits (natDecimal (P % 10 ^ cfg.digits)) cfg.digits 48 := by
  unfold TOTPm.generateToken at h
  split at h
  · cases h
  · split at h
    · cases h
    · rename_i buf hbuf
      replace h : (match TOTPm.performDynamicTruncation (TOTPm.generateHMAC cfg buf) with
        | Except.error e => Except.error e
        | Except.ok t =>
          Except.ok (padStartUnits (natDecimal (t % 10 ^ cfg.digits)) cfg.digits 48))
          = Except.ok tok := h
      split at h
      · cases h
      · rename_i P hP
        exact ⟨buf, P, hbuf, hP, (Except.ok.injEq _ _ ▸ h).symm⟩

theorem generateToken_format {cfg : TOTPConfig} {ts : Int} {tok : List Nat}
    (hd : 1 ≤ cfg.digits) (h : TOTPm.generateToken cfg ts = .ok tok) :
    tok.length = cfg.digits ∧ ∀ u ∈ tok, 48 ≤ u ∧ u ≤ 57 := by
  obtain ⟨buf, P, -, -, htok⟩ := generateToken_ok h
  subst htok
  constructor
  · rw [padStartUnits_length]
    have hlt : P % 10 ^ cfg.digits < 10 ^ cfg.digits :=
      Nat.mod_lt _ (Nat.pos_pow_of_pos _ (by omega))
    have := natDecimal_length (P % 10 ^ cfg.digits) cfg.digits hlt (by omega)
    omega
  · intro u hu
    rcases padStartUnits_mem _ _ _ u hu with rfl | hu
    · omega
    · exact natDecimal_digits _ u hu

theorem validateToken_of_generated {cfg : TOTPConfig} {ts : Int} {tok : List Nat}
    (hd : 1 ≤ cfg.digits) (h : TOTPm.generateToken cfg ts = .ok tok) :
    validateToken tok cfg.digits = .ok () := by
  obtain ⟨hlen, hdig⟩ := generateToken_format hd h
  unfold validateToken
  rw [if_neg (by intro he; rw [he] at hlen; simp at hlen; omega)]
  rw [if_neg (by
    simp only [Bool.not_eq_true', Bool.not_eq_false, List.all_eq_true]
    intro u hu
    have := hdig u hu
    simp only [Bool.and_eq_true, decide_eq_true_eq]
    omega)]
  rw [if_neg (by omega)]

theorem validateLoop_none (cfg : TOTPConfig) (tok : List Nat) (base : Int) :
    ∀ (rem : Nat) (i : Int),
      (∀ j : Int, i ≤ j → j < i + rem →
        ∃ u, TOTPm.generateToken cfg (base + j) = .ok u ∧ u ≠ tok) →
      TOTPm.validateLoop cfg tok base i rem = .ok ⟨false, none⟩ := by
  intro rem
  induction rem with
  | zero => intro i _; rfl
  | succ n ih =>
    intro i h
    obtain ⟨u, hu, hne⟩ := h i le_rfl (by omega)
    rw [show TOTPm.validateLoop cfg tok base i (n + 1)
        = (match TOTPm.generateToken cfg (base + i) with
          | .error e => .error e
          | .ok expectedToken =>
            if TOTPm.constantTimeEquals tok expectedToken then .ok ⟨true, some i⟩
            else TOTPm.validateLoop cfg tok base (i + 1) n) from rfl]
    rw [hu]
    have hct : TOTPm.constantTimeEquals tok u = false := by
      rw [← Bool.not_eq_true, constantTimeEquals_eq_iff]
      intro he
      exact hne he.symm
    dsimp only
    rw [if_neg (by rw [hct]; exact Bool.false_ne_true)]
    exact ih (i + 1) (fun j h1 h2 => h j (by omega) (by omega))

theorem validateLoop_match (cfg : TOTPConfig) (tok : List Nat) (base : Int) :
    ∀ (rem : Nat) (i j : Int), i ≤ j → j < i + rem →
      TOTPm.generateToken cfg (base + j) = .ok tok →
      (∀ j' : Int, i ≤ j' → j' < j →
        ∃ u, TOTPm.generateToken cfg (base + j') = .ok u ∧ u ≠ tok) →
      TOTPm.validateLoop cfg tok base i rem = .ok ⟨true, some j⟩ := by
  intro rem
  induction rem with
  | zero => intro i j h1 h2 _ _; omega
  | succ n ih =>
    intro i j h1 h2 hj hpre
    rw [show TOTPm.validateLoop cfg tok base i (n + 1)
        = (match TOTPm.generateToken cfg (base + i) with
          | .error e => .error e
          | .ok expectedToken =>
            if TOTPm.constantTimeEquals tok expectedToken then .ok ⟨true, some i⟩
            else TOTPm.validateLoop cfg tok base (i + 1) n) from rfl]
    by_cases hij : i = j
    · subst hij
      rw [hj]
      dsimp only
      rw [if_pos ((constantTimeEquals_eq_iff tok tok).mpr rfl)]
    · have hlt : i < j := lt_of_le_of_ne h1 hij
      obtain ⟨u, hu, hne⟩ := hpre i le_rfl hlt
      rw [hu]
      have hct : TOTPm.constantTimeEquals tok u = false := by
        rw [← Bool.not_eq_true, constantTimeEquals_eq_iff]
        intro he
        exact hne he.symm
      dsimp only
      rw [if_neg (by rw [hct]; exact Bool.false_ne_true)]
      exact ih (i + 1) j (by omega) (by omega) hj (fun j' a b => hpre j' (by omega) b)

/-! ### Helper lemmas: the constructor's validation path -/

theorem validateSecret_none (s : List Nat) :
    (∃ e, validateSecret s none = .error e) ∧
    (∀ bs, decodeSecretForHMAC s = .ok bs →
      validateSecret s none = .error .unexpectedCase) := by
  unfold validateSecret
  by_cases hs : s = []
  · rw [if_pos hs]
    refine ⟨⟨.otp .INVALID_SECRET, rfl⟩, fun bs hbs => ?_⟩
    rw [hs] at hbs
    unfold decodeSecretForHMAC at hbs
    simp at hbs
  · rw [if_neg hs]
    cases hdec : decodeSecretForHMAC s with
    | error e =>
      exact ⟨⟨e, rfl⟩, fun bs hbs => by cases hbs⟩
    | ok bs =>
      exact ⟨⟨.unexpectedCase, rfl⟩, fun bs' _ => rfl⟩

theorem validateConfig_error (cfg : TOTPConfig) :
    (∃ e, TOTPm.validateConfig cfg = .error e) ∧
    (∀ bs, decodeSecretForHMAC cfg.secret = .ok bs →
      TOTPm.validateConfig cfg = .error .unexpectedCase) := by
  obtain ⟨⟨e, he⟩, hdec⟩ := validateSecret_none cfg.secret
  unfold TOTPm.validateConfig
  constructor
  · exact ⟨e, by rw [he]⟩
  · intro bs hbs
    rw [hdec bs hbs]

/-! ### Helper lemmas: big-endian byte encoding -/

theorem beBytes_mod : ∀ n x, beBytes n (x % 256 ^ n) = beBytes n x := by
  intro n
  induction n with
  | zero => intro x; rfl
  | succ m ih =>
    intro x
    show beBytes m (x % 256 ^ (m + 1) / 256) ++ [x % 256 ^ (m + 1) % 256]
      = beBytes m (x / 256) ++ [x % 256]
    have h1 : x % 256 ^ (m + 1) / 256 = x / 256 % 256 ^ m := by
      rw [Nat.pow_succ, Nat.mul_comm]
      exact Nat.mod_mul_right_div_self x 256 (256 ^ m)
    have h2 : x % 256 ^ (m + 1) % 256 = x % 256 :=
      Nat.mod_mod_of_dvd x ⟨256 ^ m, by rw [Nat.pow_succ, Nat.mul_comm]⟩
    rw [h1, h2, ih (x / 256)]

theorem beBytes_add : ∀ n m x, beBytes (m + n) x = beBytes m (x / 256 ^ n) ++ beBytes n x := by
  intro n
  induction n with
  | zero => intro m x; simp [beBytes]
  | succ k ih =>
    intro m x
    show beBytes (m + k + 1) x = _
    rw [show beBytes (m + k + 1) x = beBytes (m + k) (x / 256) ++ [x % 256] from rfl,
      ih m (x / 256)]
    have hdiv : x / 256 / 256 ^ k = x / 256 ^ (k + 1) := by
      rw [Nat.div_div_eq_div_mul, Nat.pow_succ, Nat.mul_comm (256 ^ k) 256]
    rw [hdiv, List.append_assoc]
    rfl

/-! ### Helper lemmas: the dynamic-truncation value -/

theorem truncation_value (b0 b1 b2 b3 : Nat)
    (h1 : b1 < 256) (h2 : b2 < 256) (h3 : b3 < 256) :
    (((b0 &&& 0x7f) <<< 24) ||| ((b1 &&& 0xff) <<< 16))
      ||| (((b2 &&& 0xff) <<< 8) ||| (b3 &&& 0xff))
      = b0 % 128 * 2 ^ 24 + b1 * 2 ^ 16 + b2 * 2 ^ 8 + b3 := by
  have e0 : b0 &&& 0x7f = b0 % 128 := by
    have := Nat.and_pow_two_sub_one_eq_mod b0 7
    norm_num at this
    exact this
  have e1 : b1 &&& 0xff = b1 := by
    have := Nat.and_pow_two_sub_one_eq_mod b1 8
    norm_num [Nat.mod_eq_of_lt h1] at this
    exact this
  have e2 : b2 &&& 0xff = b2 := by
    have := Nat.and_pow_two_sub_one_eq_mod b2 8
    norm_num [Nat.mod_eq_of_lt h2] at this
    exact this
  have e3 : b3 &&& 0xff = b3 := by
    have := Nat.and_pow_two_sub_one_eq_mod b3 8
    norm_num [Nat.mod_eq_of_lt h3] at this
    exact this
  rw [e0, e1, e2, e3, Nat.shiftLeft_eq, Nat.shiftLeft_eq, Nat.shiftLeft_eq]
  have hCD : b2 * 2 ^ 8 ||| b3 = b2 * 2 ^ 8 + b3 := by
    rw [Nat.mul_comm b2 (2 ^ 8), ← Nat.mul_add_lt_is_or (by omega : b3 < 2 ^ 8) b2,
      Nat.mul_comm (2 ^ 8) b2]
  have hAB : b0 % 128 * 2 ^ 24 ||| b1 * 2 ^ 16 = b0 % 128 * 2 ^ 24 + b1 * 2 ^ 16 := by
    rw [Nat.mul_comm (b0 % 128) (2 ^ 24),
      ← Nat.mul_add_lt_is_or (by nlinarith : b1 * 2 ^ 16 < 2 ^ 24) (b0 % 128),
      Nat.mul_comm (2 ^ 24) (b0 % 128)]
  rw [hCD, hAB]
  have hsplit : b0 % 128 * 2 ^ 24 + b1 * 2 ^ 16 = 2 ^ 16 * (b0 % 128 * 2 ^ 8 + b1) := by ring
  rw [hsplit, ← Nat.mul_add_lt_is_or (by omega : b2 * 2 ^ 8 + b3 < 2 ^ 16) _]
  ring

theorem truncation_lt (b0 b1 b2 b3 : Nat) (h1 : b1 < 256) (h2 : b2 < 256) (h3 : b3 < 256) :
    b0 % 128 * 2 ^ 24 + b1 * 2 ^ 16 + b2 * 2 ^ 8 + b3 < 2 ^ 31 := by
  have h0 : b0 % 128 < 128 := Nat.mod_lt _ (by omega)
  omega

/-! ## Claim theorems -/

/-- **C3**: For every configuration whatsoever — including a well-formed one
whose secret decodes to exactly the byte length mandated by the algorithm —
the `TOTP` constructor raises an error and never returns an instance:
`validateConfig` invokes `validateSecret` with the secret only, so
`getSecretLength` receives no algorithm, reaches its default branch, and
throws `UnexpectedCaseError` (a plain `Error`, not an `OTPException`) before
any length comparison happens. -/
theorem c3_constructor_never_returns (cfg : TOTPConfig) :
    (∀ t, TOTP.new cfg ≠ .ok t) ∧
    (∀ bs, decodeSecretForHMAC cfg.secret = .ok bs →
      TOTP.new cfg = .error .unexpectedCase) := by
  obtain ⟨⟨e, he⟩, hdec⟩ := validateConfig_error cfg
  constructor
  · intro t hc
    unfold TOTP.new at hc
    rw [he] at hc
    cases hc
  · intro bs hbs
    unfold TOTP.new
    rw [hdec bs hbs]

/-- Witness for C3: the well-formed RFC configuration (secret decodes to
exactly 20 bytes for SHA-1) still makes the constructor throw
`UnexpectedCaseError`. -/
theorem c3_witness : TOTP.new rfcSha1Config = .error .unexpectedCase :=
  (c3_constructor_never_returns rfcSha1Config).2
    (strUnits "12345678901234567890") (by decide)

/-- **C4** (code bug): a configuration whose valid-base32 secret decodes to
10 bytes instead of SHA-1's 20 should raise `INVALID_SECRET`, but the
constructor instead throws the plain `UnexpectedCaseError`, because the
omitted algorithm argument makes `getSecretLength` throw before the length
comparison. -/
theorem c4_wrong_length_secret :
    decodeSecretForHMAC shortSecretConfig.secret = .ok (strUnits "1234567890") ∧
    (strUnits "1234567890").length ≠ 20 ∧
    TOTP.new shortSecretConfig = .error .unexpectedCase ∧
    JSError.unexpectedCase ≠ .otp .INVALID_SECRET := by
  refine ⟨by decide, by decide, by decide, by decide⟩

/-- **C6**: dynamic truncation: with `offset = hash[last] & 0x0F`, when the
digest has at least `offset + 4` bytes, the result is the 4 bytes starting at
`offset` read big-endian with the most significant bit of the first byte
cleared — a 31-bit unsigned integer `P`; and every successfully generated
token's numeric value is `P mod 10^digits` for the `P` truncated from the
HMAC digest. -/
theorem c6_dynamic_truncation :
    (∀ (hash : Bytes) (last b0 b1 b2 b3 : Nat),
      hash.getLast? = some last →
      hash.get? (last &&& 0x0f) = some b0 →
      hash.get? ((last &&& 0x0f) + 1) = some b1 →
      hash.get? ((last &&& 0x0f) + 2) = some b2 →
      hash.get? ((last &&& 0x0f) + 3) = some b3 →
      b1 < 256 → b2 < 256 → b3 < 256 →
      (last &&& 0x0f) + 4 ≤ hash.length →
      TOTPm.performDynamicTruncation hash =
        .ok (b0 % 128 * 2 ^ 24 + b1 * 2 ^ 16 + b2 * 2 ^ 8 + b3) ∧
      b0 % 128 * 2 ^ 24 + b1 * 2 ^ 16 + b2 * 2 ^ 8 + b3 < 2 ^ 31) ∧
    (∀ (cfg : TOTPConfig) (ts : Int) (tok : List Nat),
      TOTPm.generateToken cfg ts = .ok tok →
      ∃ buf P, TOTPm.createTimeBuffer ts = .ok buf ∧
        TOTPm.performDynamicTruncation (TOTPm.generateHMAC cfg buf) = .ok P ∧
        digitsToNat tok = P % 10 ^ cfg.digits) := by
  constructor
  · intro hash last b0 b1 b2 b3 hlast h0 h1 h2 h3 hb1 hb2 hb3 hlen
    constructor
    · unfold TOTPm.performDynamicTruncation
      rw [hlast]
      dsimp only
      rw [if_neg (by omega), h0, h1, h2, h3]
      dsimp only
      rw [truncation_value b0 b1 b2 b3 hb1 hb2 hb3]
    · exact truncation_lt b0 b1 b2 b3 hb1 hb2 hb3
  · intro cfg ts tok h
    obtain ⟨buf, P, hbuf, hP, htok⟩ := generateToken_ok h
    refine ⟨buf, P, hbuf, hP, ?_⟩
    rw [htok, digitsToNat_padStart_zeros, digitsToNat_natDecimal]

/-- Witness for C6: the truncation formula evaluated on the concrete 20-byte
HMAC-SHA1 digest of counter 1 under the RFC configuration (last byte `0x0d`,
so offset 13, bytes `27 3d f9 52`), and the token-value relation at that
same input. -/
theorem c6_witness :
    (TOTPm.performDynamicTruncation
        [0xe6, 0xeb, 0x23, 0x5a, 0xfd, 0x7e, 0x7e, 0x4c, 0xf4, 0x38,
         0x84, 0x6d, 0x96, 0x27, 0x3d, 0xf9, 0x52, 0xd1, 0x8c, 0x0d] =
      .ok (0x27 % 128 * 2 ^ 24 + 0x3d * 2 ^ 16 + 0xf9 * 2 ^ 8 + 0x52) ∧
      0x27 % 128 * 2 ^ 24 + 0x3d * 2 ^ 16 + 0xf9 * 2 ^ 8 + 0x52 < 2 ^ 31) ∧
    (∃ buf P, TOTPm.createTimeBuffer 1 = .ok buf ∧
      TOTPm.performDynamicTruncation (TOTPm.generateHMAC rfcSha1Config buf) = .ok P ∧
      digitsToNat (strUnits "58372946") = P % 10 ^ rfcSha1Config.digits) :=
  ⟨c6_dynamic_truncation.1
      [0xe6, 0xeb, 0x23, 0x5a, 0xfd, 0x7e, 0x7e, 0x4c, 0xf4, 0x38,
       0x84, 0x6d, 0x96, 0x27, 0x3d, 0xf9, 0x52, 0xd1, 0x8c, 0x0d]
      0x0d 0x27 0x3d 0xf9 0x52 (by decide) (by decide) (by decide) (by decide)
      (by decide) (by decide) (by decide) (by decide) (by decide),
   c6_dynamic_truncation.2 rfcSha1Config 1 (strUnits "58372946") (by decide)⟩

/-- **C5** (counterexample): a token generated at step `k = 37037036`,
validated at a time whose base step is `k + 1` (offset `δ = 1`, window 1),
succeeds but returns `delta = -1`, not `δ = 1` as the claim states. -/
theorem c5_counterexample :
    TOTPm.generateToken rfcSha1Config 37037036 = .ok (strUnits "04177030") ∧
    TOTPm.validate rfcSha1Config (strUnits "04177030") 1111111139000 1 =
      .ok ⟨true, some (-1)⟩ ∧
    (-1 : Int) ≠ 1 :=
  ⟨by decide, by decide, by decide⟩

/-- **C7** (corrected): the counter is encoded as an 8-byte big-endian
unsigned integer — but not for *every* non-negative counter: when the low 32
bits of the counter have the sign bit set, `timeStep & 0xffffffff` is a
negative `Int32` and `Buffer.writeUInt32BE` throws a range error.  For
counters below `2^64` whose low word stays below `2^31`, the encoding
succeeds, without error, and is exactly the 8-byte big-endian form (high 32
bits in bytes 0–3, low 32 bits in bytes 4–7). -/
theorem c7_time_buffer (c : Nat) (hlo : c % 2 ^ 32 < 2 ^ 31) (hhi : c < 2 ^ 64) :
    TOTPm.createTimeBuffer (c : Int) = .ok (beBytes 8 c) := by
  have hto : toInt32 (c : Int) = ((c % 2 ^ 32 : Nat) : Int) := by
    show (if (2 ^ 31 : Int) ≤ (c : Int) % (2 ^ 32 : Int) then
        (c : Int) % (2 ^ 32 : Int) - 2 ^ 32
      else (c : Int) % (2 ^ 32 : Int)) = ((c % 2 ^ 32 : Nat) : Int)
    have hm : (c : Int) % (2 ^ 32 : Int) = ((c % 2 ^ 32 : Nat) : Int) := by norm_cast
    rw [hm, if_neg (by push_cast; omega)]
  have hfd : Int.fdiv (c : Int) (2 ^ 32) = ((c / 2 ^ 32 : Nat) : Int) := by
    rw [Int.fdiv_eq_ediv _ (by positivity)]
    norm_cast
  show (if Int.fdiv (c : Int) (2 ^ 32) < 0 ∨ (2 ^ 32 : Int) ≤ Int.fdiv (c : Int) (2 ^ 32)
      then (.error .outOfRange : Except JSError Bytes)
    else if toInt32 (c : Int) < 0 ∨ (2 ^ 32 : Int) ≤ toInt32 (c : Int) then .error .outOfRange
    else .ok (beBytes 4 (Int.fdiv (c : Int) (2 ^ 32)).toNat
      ++ beBytes 4 (toInt32 (c : Int)).toNat)) = .ok (beBytes 8 c)
  rw [hfd, hto]
  rw [if_neg (by push_cast; omega), if_neg (by push_cast; omega)]
  rw [Int.toNat_natCast, Int.toNat_natCast]
  have h232 : (2 : Nat) ^ 32 = 256 ^ 4 := by norm_num
  rw [h232, beBytes_mod 4 c, show (8 : Nat) = 4 + 4 from rfl, beBytes_add 4 4 c]

/-- Witness for C7: counter 59 is encoded as the 8 bytes `00…00 3b`. -/
theorem c7_witness : TOTPm.createTimeBuffer ((59 : Nat) : Int) = .ok (beBytes 8 59) :=
  c7_time_buffer 59 (by decide) (by decide)

/-- Counterexample for C7: the non-negative counter `2^31` passes
`validateCounter`, yet `createTimeBuffer` throws node's range error instead
of returning the 8-byte encoding. -/
theorem c7_counterexample :
    validateCounter ((2 ^ 31 : Nat) : Int) = .ok () ∧
    TOTPm.createTimeBuffer ((2 ^ 31 : Nat) : Int) = .error .outOfRange :=
  ⟨by decide, by decide⟩

/-- **C9**: the constant-time comparator returns `false` for inputs of
different lengths, and for equal-length inputs its accumulated bitwise
difference is zero exactly when the two (code-unit) strings are identical. -/
theorem c9_constant_time (a b : List Nat) :
    (a.length ≠ b.length → TOTPm.constantTimeEquals a b = false) ∧
    (TOTPm.constantTimeEquals a b = true ↔ a = b) := by
  refine ⟨fun h => ?_, constantTimeEquals_eq_iff a b⟩
  unfold TOTPm.constantTimeEquals
  rw [if_pos h]

/-- Witness for C9: a length mismatch yields `false`; equal strings compare
`true`. -/
theorem c9_witness :
    TOTPm.constantTimeEquals (strUnits "123") (strUnits "1234") = false ∧
    TOTPm.constantTimeEquals (strUnits "94287082") (strUnits "94287082") = true :=
  ⟨(c9_constant_time (strUnits "123") (strUnits "1234")).1 (by decide),
   (c9_constant_time (strUnits "94287082") (strUnits "94287082")).2.mpr rfl⟩

/-- **C10**: for a valid digit count (6–8), every successfully generated
token has length exactly `digits` and consists only of decimal digit
characters (zero-padding included). -/
theorem c10_token_format (cfg : TOTPConfig) (ts : Int) (tok : List Nat)
    (h6 : 6 ≤ cfg.digits) (_h8 : cfg.digits ≤ 8)
    (hok : TOTPm.generateToken cfg ts = .ok tok) :
    tok.length = cfg.digits ∧ ∀ u ∈ tok, 48 ≤ u ∧ u ≤ 57 :=
  generateToken_format (by omega) hok

/-- Witness for C10: the token generated at step 1 under the RFC SHA-1
configuration has exactly 8 decimal digits. -/
theorem c10_witness :
    (strUnits "58372946").length = rfcSha1Config.digits ∧
      ∀ u ∈ strUnits "58372946", 48 ≤ u ∧ u ≤ 57 :=
  c10_token_format rfcSha1Config 1 (strUnits "58372946")
    (by decide) (by decide) (by decide)

/-- **C5** (amended): for a valid configuration, window `w`, generation step
`k`, and a validation time with base step `b` — provided every token in the
checked window generates successfully and equals the step-`k` token exactly
at step `k` itself (token collisions inside the window are the
astronomically unlikely case the spec itself sets aside) — validation
succeeds if and only if `|b - k| ≤ w`, and on success returns
`delta = k - b`, i.e. MINUS the offset `δ = b - k` from the generation step
to the validation base step. -/
theorem c5_window_validation (cfg : TOTPConfig) (w k t : Nat) (tok : List Nat)
    (hd : 6 ≤ cfg.digits) (_hd8 : cfg.digits ≤ 8)
    (hk : TOTPm.generateToken cfg (k : Int) = .ok tok)
    (hsteps : ∀ i : Int, -(w : Int) ≤ i → i ≤ (w : Int) →
      ∃ u, TOTPm.generateToken cfg (((t / 1000 / cfg.period : Nat) : Int) + i) = .ok u ∧
        (u = tok ↔ ((t / 1000 / cfg.period : Nat) : Int) + i = (k : Int))) :
    (-(w : Int) ≤ ((t / 1000 / cfg.period : Nat) : Int) - (k : Int) ∧
        ((t / 1000 / cfg.period : Nat) : Int) - (k : Int) ≤ (w : Int) →
      TOTPm.validate cfg tok t w =
        .ok ⟨true, some ((k : Int) - ((t / 1000 / cfg.period : Nat) : Int))⟩) ∧
    (¬(-(w : Int) ≤ ((t / 1000 / cfg.period : Nat) : Int) - (k : Int) ∧
        ((t / 1000 / cfg.period : Nat) : Int) - (k : Int) ≤ (w : Int)) →
      TOTPm.validate cfg tok t w = .ok ⟨false, none⟩) := by
  have hfmt : validateToken tok cfg.digits = .ok () :=
    validateToken_of_generated (by omega) hk
  constructor
  · rintro ⟨hδ1, hδ2⟩
    unfold TOTPm.validate
    rw [hfmt]
    apply validateLoop_match cfg tok _ (2 * w + 1) (-(w : Int))
      ((k : Int) - ((t / 1000 / cfg.period : Nat) : Int))
    · omega
    · omega
    · obtain ⟨u, hu, hiff⟩ := hsteps ((k : Int) - ((t / 1000 / cfg.period : Nat) : Int))
        (by omega) (by omega)
      have : u = tok := hiff.mpr (by ring)
      rw [← this]
      exact hu
    · intro j' hj1 hj2
      obtain ⟨u, hu, hiff⟩ := hsteps j' (by omega) (by omega)
      refine ⟨u, hu, fun he => ?_⟩
      have := hiff.mp he
      omega
  · intro hδ
    unfold TOTPm.validate
    rw [hfmt]
    apply validateLoop_none cfg tok _ (2 * w + 1) (-(w : Int))
    intro j hj1 hj2
    obtain ⟨u, hu, hiff⟩ := hsteps j (by omega) (by omega)
    refine ⟨u, hu, fun he => ?_⟩
    have := hiff.mp he
    omega

/-- Witness for C5 (amended): under the RFC SHA-1 configuration, the token
of step 37037036 validated at base step 37037037 (offset `δ = 1`, window 1)
returns `delta = -1`. -/
theorem c5_witness :
    TOTPm.validate rfcSha1Config (strUnits "04177030") 1111111139000 1 =
      .ok ⟨true, some (-1)⟩ := by
  refine (c5_window_validation rfcSha1Config 1 37037036 1111111139000
    (strUnits "04177030") (by decide) (by decide) (by decide) ?_).1
    ⟨by decide, by decide⟩
  intro i h1 h2
  have hi : i = -1 ∨ i = 0 ∨ i = 1 := by omega
  rcases hi with rfl | rfl | rfl
  · exact ⟨strUnits "04177030", by decide, by decide⟩
  · exact ⟨strUnits "71661811", by decide, by decide⟩
  · exact ⟨strUnits "72428988", by decide, by decide⟩

/-- **C8** (counterexample): with the well-formed token `"00000000"`, a
timestamp whose base step is 0, and window 1, the loop's first candidate
counter is −1, so `validate` throws `INVALID_COUNTER` instead of returning
`{isValid: false}`. -/
theorem c8_counterexample :
    validateToken (strUnits "00000000") rfcSha1Config.digits = .ok () ∧
    TOTPm.validate rfcSha1Config (strUnits "00000000") 0 1 =
      .error (.otp .INVALID_COUNTER) :=
  ⟨by decide, by decide⟩

/-- **C8** (amended): for a well-formed token and a window whose candidate
counters all generate successfully (in particular they are all
non-negative), if the token matches none of the `2w+1` candidates then
`validate` returns `{isValid: false}` with no delta and raises no error. -/
theorem c8_no_match_no_error (cfg : TOTPConfig) (tok : List Nat) (t w : Nat)
    (hfmt : validateToken tok cfg.digits = .ok ())
    (hsteps : ∀ i : Int, -(w : Int) ≤ i → i ≤ (w : Int) →
      ∃ u, TOTPm.generateToken cfg (((t / 1000 / cfg.period : Nat) : Int) + i) = .ok u ∧
        u ≠ tok) :
    TOTPm.validate cfg tok t w = .ok ⟨false, none⟩ := by
  unfold TOTPm.validate
  rw [hfmt]
  exact validateLoop_none cfg tok _ (2 * w + 1) (-(w : Int))
    (fun j h1 h2 => hsteps j (by omega) (by omega))

/-- Witness for C8 (amended): the token `"00000000"` matches none of the
three candidates around base step 1 (timestamp 59 s, window 1), and
`validate` reports `{isValid: false}` without raising. -/
theorem c8_witness :
    TOTPm.validate rfcSha1Config (strUnits "00000000") 59000 1 =
      .ok ⟨false, none⟩ := by
  refine c8_no_match_no_error rfcSha1Config (strUnits "00000000") 59000 1
    (by decide) ?_
  intro i h1 h2
  have hi : i = -1 ∨ i = 0 ∨ i = 1 := by omega
  rcases hi with rfl | rfl | rfl
  · exact ⟨strUnits "22312805", by decide, by decide⟩
  · exact ⟨strUnits "58372946", by decide, by decide⟩
  · exact ⟨strUnits "63368021", by decide, by decide⟩

/-- **C1** (code bug): the RFC 6238 vectors are NOT reproduced by the code.
First, the constructor always throws (see C3), so no generator can even be
built from the RFC configuration.  Second, the derivation itself keys the
HMAC with the base32 text instead of the decoded secret, so `generate` at
time 59 s yields `"58372946"`, not the RFC-mandated `"94287082"`.  The
spec-modelled engine (`deriveSpec`, keyed by the decoded bytes) reproduces
all nine claimed vectors exactly, confirming the claim describes the intent
(and the repository's own RFC test expectations). -/
theorem c1_rfc_vectors :
    TOTP.new rfcSha1Config = .error .unexpectedCase ∧
    TOTPm.generate rfcSha1Config 59000 = .ok ⟨strUnits "58372946", 1⟩ ∧
    strUnits "58372946" ≠ strUnits "94287082" ∧
    deriveSpec rfcSecret20 .SHA1 (59 / 30) 8 = .ok (strUnits "94287082") ∧
    deriveSpec rfcSecret20 .SHA1 (1111111109 / 30) 8 = .ok (strUnits "07081804") ∧
    deriveSpec rfcSecret20 .SHA1 (1234567890 / 30) 8 = .ok (strUnits "89005924") ∧
    deriveSpec rfcSecret32 .SHA256 (59 / 30) 8 = .ok (strUnits "46119246") ∧
    deriveSpec rfcSecret32 .SHA256 (1111111109 / 30) 8 = .ok (strUnits "68084774") ∧
    deriveSpec rfcSecret32 .SHA256 (1234567890 / 30) 8 = .ok (strUnits "91819424") ∧
    deriveSpec rfcSecret64 .SHA512 (59 / 30) 8 = .ok (strUnits "90693936") ∧
    deriveSpec rfcSecret64 .SHA512 (1111111109 / 30) 8 = .ok (strUnits "25091201") ∧
    deriveSpec rfcSecret64 .SHA512 (1234567890 / 30) 8 = .ok (strUnits "93441116") :=
  ⟨by decide, by decide, by decide, by decide, by decide, by decide, by decide,
   by decide, by decide, by decide, by decide, by decide⟩

/-- **C2** (code bug): the digest is NOT computed with the decoded secret
bytes as key.  At counter 1 under the RFC SHA-1 configuration the engine's
digest is the HMAC keyed by the UTF-8 bytes of the base32 TEXT, which
differs from the HMAC keyed by the 20 bytes that text decodes to. -/
theorem c2_hmac_key :
    decodeSecretForHMAC rfcSha1Config.secret = .ok rfcSecret20 ∧
    TOTPm.generateHMAC rfcSha1Config (beBytes 8 1) =
      [0xe6, 0xeb, 0x23, 0x5a, 0xfd, 0x7e, 0x7e, 0x4c, 0xf4, 0x38,
       0x84, 0x6d, 0x96, 0x27, 0x3d, 0xf9, 0x52, 0xd1, 0x8c, 0x0d] ∧
    hmacSha1 rfcSecret20 (beBytes 8 1) =
      [0x75, 0xa4, 0x8a, 0x19, 0xd4, 0xcb, 0xe1, 0x00, 0x64, 0x4e,
       0x8a, 0xc1, 0x39, 0x7e, 0xea, 0x74, 0x7a, 0x2d, 0x33, 0xab] ∧
    TOTPm.generateHMAC rfcSha1Config (beBytes 8 1) ≠ hmacSha1 rfcSecret20 (beBytes 8 1) :=
  ⟨by decide, by decide, by decide, by decide⟩

end OTP
